import Mathlib

/-
Shallow embedding of the idbdownsampler orchestration engine.

Sources embedded here (Go):
  - package db (Influx gateway): NewInflux, GetDsInstances grouping,
    GetAllInstances window start, LastTS consumers, IsBwUtilDone,
    StoreBwUsage, Downsample (chunk loop and shrink loop);
  - package app: startResMon tick body, workOn cycle, collectionBuckets,
    and the legacy app-package getDsInstances window start.

Modelling conventions: instants and durations are integers (seconds);
Go float64 values that are only compared (task count, memory percent,
memory limit) are rationals; fallible DB queries are oracle inputs of
type Except Unit; the two unbounded loops inside Downsample are embedded
with an explicit fuel parameter, so that termination of the Go loops is
the statement that some fuel yields a result.
-/

namespace Idbds

/-- Go db.Bucket: From (optional source bucket pointer), Name, AInterv
(aggregation interval), RPeriod (retention period), First (head tier flag). -/
inductive Bucket : Type where
  | mk : Option Bucket → String → Int → Int → Bool → Bucket

/-- Source back-reference of a bucket (Go field From). -/
def Bucket.From : Bucket → Option Bucket
  | .mk f _ _ _ _ => f

/-- Bucket name (Go field Name). -/
def Bucket.Name : Bucket → String
  | .mk _ n _ _ _ => n

/-- Aggregation interval in seconds (Go field AInterv). -/
def Bucket.AInterv : Bucket → Int
  | .mk _ _ a _ _ => a

/-- Retention period in seconds (Go field RPeriod). -/
def Bucket.RPeriod : Bucket → Int
  | .mk _ _ _ r _ => r

/-- Head-tier flag (Go field First). -/
def Bucket.First : Bucket → Bool
  | .mk _ _ _ _ f => f

/-- Go db.Influx gateway parameters.  The HTTP client handle is not part of
the control state and is omitted. -/
structure Influx where
  Org : String
  Statsb : String
  Bwb : String
  DsMemLimit : ℚ
  AggrCnt : Int
  CardMedium : Int
  CardHevy : Int
  DbHasResources : Bool

/-- Go db.NewInflux(url, token, org, sb, bw, timeout).  url, token and
timeout only configure the HTTP client and do not appear in the returned
control state. -/
def NewInflux (url token org sb bw : String) (timeout : Nat) : Influx :=
  { Org := org
    DsMemLimit := 40
    AggrCnt := 8
    Statsb := sb
    Bwb := bw
    CardMedium := 50
    CardHevy := 1000
    DbHasResources := true }

/-- The resource-gate busy wait (in Downsample and in workOn) loops while
DbHasResources is false and breaks immediately otherwise; at a fixed gate
value it blocks iff the flag is false. -/
def gateWaitBlocks (dbHasResources : Bool) : Bool :=
  !dbHasResources

/-- The aggregations-at-once count computed in Downsample:
ac := AggrCnt; switch card cases multiply it by 20, by 10, or leave it. -/
def aggrMult (aggrCnt card : Int) : Int :=
  if card ≠ 0 ∧ card < 100 then aggrCnt * 20
  else if card < 1000 then aggrCnt * 10
  else aggrCnt

/-- Chunk duration c = time.Duration(ac) * b.AInterv in Downsample. -/
def chunkDur (aggrCnt card aInterv : Int) : Int :=
  aggrMult aggrCnt card * aInterv

/-- The cardinality-group switch in GetDsInstances: light below CardMedium,
medium below CardHevy, hevy otherwise. -/
def rankGroup (cardMedium cardHevy card : Int) : String :=
  if card < cardMedium then "light"
  else if card < cardHevy then "medium"
  else "hevy"

/-- The grouping loop of db.GetDsInstances.  Each probe is the pair
(returned cardinality value, whether the Cardinality query errored); the
Go code logs a warning on error but then switches on the returned value
unchanged, so the error flag does not influence the chosen group. -/
def GetDsInstances (cardMedium cardHevy : Int) (probes : List (String × Int × Bool)) :
    List (String × String) :=
  probes.map fun p => (p.1, rankGroup cardMedium cardHevy p.2.1)

/-- One tick of the startResMon loop: the value assigned to DbHasResources
given the GetRunningTasks result and the GetMemUsage result (each either a
query error or an optional scalar). -/
def startResMonTick (dsMemLimit : ℚ) (tasks mem : Except Unit (Option ℚ)) : Bool :=
  match tasks with
  | .error _ => false
  | .ok none => false
  | .ok (some t) =>
    if 0 < t then false
    else
      match mem with
      | .error _ => false
      | .ok none => false
      | .ok (some m) => if dsMemLimit < m then false else true

/-- Restatement of the claim for the running-tasks probe, from the spec
words: error, or no value, or a value above zero. -/
def specTasksPause (tasks : Except Unit (Option ℚ)) : Bool :=
  match tasks with
  | .error _ => true
  | .ok none => true
  | .ok (some t) => decide (0 < t)

/-- Restatement of the claim for the memory probe, from the spec words:
error, or no value, or a value above dsMemLimit. -/
def specMemPause (dsMemLimit : ℚ) (mem : Except Unit (Option ℚ)) : Bool :=
  match mem with
  | .error _ => true
  | .ok none => true
  | .ok (some m) => decide (dsMemLimit < m)

/-- Window start of the instance query built by db.GetAllInstances:
st := now - 10 * b.AInterv, used by both query shapes; an unknown
collection is an error. -/
def GetAllInstancesStart (b : Bucket) (c : String) (now : Int) : Except String Int :=
  let st := now - 10 * b.AInterv
  if c = "ifstats" ∨ c = "iftraffic" ∨ c = "gengauge" ∨ c = "gencounter" then
    Except.ok st
  else if c = "icingachk" then
    Except.ok st
  else
    Except.error ("unknown collection " ++ c)

/-- Window start of the instance query built by the legacy app-package
getDsInstances: st := now - 2 * b.aInterv, for its two collections. -/
def appGetDsInstancesStart (b : Bucket) (c : String) (now : Int) : Except String Int :=
  let st := now - 2 * b.AInterv
  if c = "iftraffic" then Except.ok st
  else if c = "icingachk" then Except.ok st
  else Except.error ("unknown collection " ++ c)

/-- The telegraf/2d head bucket from collectionBuckets (2m, 48h). -/
def b2d : Bucket :=
  .mk none "telegraf/2d" 120 172800 true

/-- The telegraf/7d bucket from collectionBuckets (8m, 168h). -/
def b7d : Bucket :=
  .mk (some b2d) "telegraf/7d" 480 604800 false

/-- The telegraf/28d bucket from collectionBuckets (30m, 672h). -/
def b28d : Bucket :=
  .mk (some b7d) "telegraf/28d" 1800 2419200 false

/-- The telegraf/all bucket from collectionBuckets (180m, 17520h). -/
def b730d : Bucket :=
  .mk (some b28d) "telegraf/all" 10800 63072000 false

/-- The icinga2/one_week head bucket from collectionBuckets (1m, 168h). -/
def b1w : Bucket :=
  .mk none "icinga2/one_week" 60 604800 true

/-- The icinga2/four_weeks bucket from collectionBuckets (30m, 672h). -/
def b4w : Bucket :=
  .mk (some b1w) "icinga2/four_weeks" 1800 2419200 false

/-- The icinga2/all bucket from collectionBuckets (180m, 17520h). -/
def ball : Bucket :=
  .mk (some b4w) "icinga2/all" 10800 63072000 false

/-- app.collectionBuckets: the static tier chain per collection. -/
def collectionBuckets (s : String) : Except String (List Bucket) :=
  if s = "iftraffic" then Except.ok [b2d, b7d, b28d, b730d]
  else if s = "icingachk" then Except.ok [b1w, b4w, ball]
  else Except.error ("unknown collection " ++ s)

/-- db.IsBwUtilDone: true iff the bwutil query over range start
now - 24h returns at least one row; points is the list of bwutil
timestamps stored for the instance in the bandwidth bucket. -/
def IsBwUtilDone (now : Int) (points : List Int) : Bool :=
  points.any fun t => now - 86400 ≤ t

/-- db.StoreBwUsage: result is the number of write programs submitted.
The probe argument is the IsBwUtilDone query outcome (error, or the
instance's stored bwutil timestamps).  On probe error the error is
returned before any submission; when data for the last 24h is present
nothing is submitted; otherwise exactly one program is submitted. -/
def StoreBwUsage (now : Int) (probe : Except Unit (List Int)) : Except Unit Nat :=
  match probe with
  | .error e => .error e
  | .ok pts => if IsBwUtilDone now pts then .ok 0 else .ok 1

/-- The inner shrink loop of Downsample: while not (tTs before ft),
tTs := tTs - a.  Fuel-indexed; none means the fuel ran out before the
loop exited. -/
def shrinkLoop (a ft : Int) : Nat → Int → Option Int
  | 0, _ => none
  | fuel + 1, tTs => if tTs < ft then some tTs else shrinkLoop a ft fuel (tTs - a)

/-- The chunk loop of Downsample: while fTs before ft - a, take
tTs := shrink (fTs + c), emit the window (fTs, tTs) (the flux program is
rendered with these two instants and submitted), then fTs := fTs + c.
Fuel-indexed; none means some loop ran out of fuel.  sf is the fuel given
to each shrink-loop run. -/
def downsampleLoop (a c ft : Int) (sf : Nat) :
    Nat → Int → List (Int × Int) → Option (List (Int × Int))
  | 0, _, _ => none
  | fuel + 1, fTs, acc =>
    if fTs < ft - a then
      match shrinkLoop a ft sf (fTs + c) with
      | none => none
      | some tTs => downsampleLoop a c ft sf fuel (fTs + c) (acc ++ [(fTs, tTs)])
    else some acc

/-- Query outcomes consumed by one Downsample call: the current instant,
the LastTS result on the source bucket (fatal on error), the LastTS value
on the target bucket (used even when that query errored, matching the Go
code), and the Cardinality value (likewise used even on error). -/
structure DsEnv where
  now : Int
  srcLast : Except Unit Int
  tgtLast : Int
  card : Int

/-- db.Downsample for one (target bucket, instance, collection): either
the Go return value (ok with the list of submitted chunk windows, or an
error), or none when the given fuel is insufficient for the loops.
Dereferencing a nil From pointer (impossible for the configured chains)
is modelled as an error. -/
def Downsample (aggrCnt : Int) (b : Bucket) (env : DsEnv) (sf f : Nat) :
    Option (Except String (List (Int × Int))) :=
  match b.From with
  | none => some (.error "nil source bucket")
  | some _ =>
    match env.srcLast with
    | .error _ => some (.error "error getting last measurement time")
    | .ok ft =>
      let fTs := env.tgtLast
      if env.now ≤ fTs + b.AInterv then some (.ok [])
      else
        let c := chunkDur aggrCnt env.card b.AInterv
        (downsampleLoop b.AInterv c ft sf f fTs []).map .ok

/-- One pass of the workOn bucket loop over the tier chain: returns the
list of (bucket, instance) pairs passed to Downsample during the pass,
and the instance list left for the next cycle (none when a head-tier
re-enumeration errored, which makes workOn return).  reenum is the
GetDsInstances group lookup performed at the head tier. -/
def cycleStep (reenum : Except Unit (List String)) :
    List Bucket → Bool → List String → List (Bucket × String) × Option (List String)
  | [], _, insts => ([], some insts)
  | b :: bs, firstRun, insts =>
    if b.First then
      if firstRun then cycleStep reenum bs firstRun insts
      else
        match reenum with
        | .error _ => ([], none)
        | .ok is => cycleStep reenum bs firstRun is
    else
      let rest := cycleStep reenum bs firstRun insts
      ((insts.map fun i => (b, i)) ++ rest.1, rest.2)

/-- The first n cycles of app.workOn: the trace of (bucket, instance)
pairs passed to Downsample.  firstRun is true on the first cycle and
false afterwards; reenum gives the head-tier re-enumeration outcome per
cycle. -/
def workOnCalls (reenum : Nat → Except Unit (List String)) (buckets : List Bucket) :
    Nat → Bool → List String → List (Bucket × String)
  | 0, _, _ => []
  | n + 1, firstRun, insts =>
    match cycleStep (reenum n) buckets firstRun insts with
    | (calls, none) => calls
    | (calls, some insts2) => calls ++ workOnCalls reenum buckets n false insts2

/-- Unfolding equation for one shrink-loop step. -/
theorem shrinkLoop_succ_eq (a ft : Int) (n : Nat) (t0 : Int) :
    shrinkLoop a ft (n + 1) t0
      = if t0 < ft then some t0 else shrinkLoop a ft n (t0 - a) := rfl

/-- A value returned by the shrink loop is strictly before the source
frontier: the loop only breaks on tTs < ft. -/
theorem shrinkLoop_lt_ft (a ft : Int) :
    ∀ (sf : Nat) (t0 t : Int), shrinkLoop a ft sf t0 = some t → t < ft := by
  intro sf
  induction sf with
  | zero =>
    intro t0 t h
    simp [shrinkLoop] at h
  | succ n ih =>
    intro t0 t h
    rw [shrinkLoop_succ_eq] at h
    by_cases h1 : t0 < ft
    · rw [if_pos h1] at h
      cases h
      exact h1
    · rw [if_neg h1] at h
      exact ih _ _ h

/-- The shrink loop either does not run (the result is the start value) or
stops at the first value before ft, which is therefore at least ft - a. -/
theorem shrinkLoop_eq_or_ge (a ft : Int) :
    ∀ (sf : Nat) (t0 t : Int), shrinkLoop a ft sf t0 = some t → t = t0 ∨ ft ≤ t + a := by
  intro sf
  induction sf with
  | zero =>
    intro t0 t h
    simp [shrinkLoop] at h
  | succ n ih =>
    intro t0 t h
    rw [shrinkLoop_succ_eq] at h
    by_cases h1 : t0 < ft
    · rw [if_pos h1] at h
      cases h
      exact Or.inl rfl
    · rw [if_neg h1] at h
      rcases ih _ _ h with heq | hge
      · right
        omega
      · exact Or.inr hge

/-- With a positive step, fuel above the distance to the frontier is
enough for the shrink loop to exit. -/
theorem shrinkLoop_some (a ft : Int) (ha : 1 ≤ a) :
    ∀ (n : Nat) (t0 : Int), (t0 - ft).toNat < n →
      ∃ t, shrinkLoop a ft (n + 1) t0 = some t := by
  intro n
  induction n with
  | zero =>
    intro t0 hb
    omega
  | succ m ih =>
    intro t0 hb
    rw [shrinkLoop_succ_eq]
    by_cases h1 : t0 < ft
    · exact ⟨t0, by rw [if_pos h1]⟩
    · rw [if_neg h1]
      by_cases h2 : t0 - a < ft
      · exact ⟨t0 - a, by rw [shrinkLoop_succ_eq, if_pos h2]⟩
      · exact ih (t0 - a) (by omega)

/-- Unfolding equation for one chunk-loop step. -/
theorem downsampleLoop_succ_eq (a c ft : Int) (sf n : Nat) (fTs : Int)
    (acc : List (Int × Int)) :
    downsampleLoop a c ft sf (n + 1) fTs acc
      = if fTs < ft - a then
          match shrinkLoop a ft sf (fTs + c) with
          | none => none
          | some tTs => downsampleLoop a c ft sf n (fTs + c) (acc ++ [(fTs, tTs)])
        else some acc := rfl

/-- Every window in a chunk-loop result stops strictly before the source
frontier and is non-empty, given a positive aggregation interval, a
positive chunk width, and the same facts about the accumulator. -/
theorem downsampleLoop_mem (a c ft : Int) (sf : Nat) (ha : 0 < a) (hc : 0 < c) :
    ∀ (n : Nat) (fTs : Int) (acc ws : List (Int × Int)),
      downsampleLoop a c ft sf n fTs acc = some ws →
      (∀ w ∈ acc, w.2 < ft ∧ w.1 < w.2) →
      ∀ w ∈ ws, w.2 < ft ∧ w.1 < w.2 := by
  intro n
  induction n with
  | zero =>
    intro fTs acc ws h _
    simp [downsampleLoop] at h
  | succ m ih =>
    intro fTs acc ws h hacc
    rw [downsampleLoop_succ_eq] at h
    by_cases hg : fTs < ft - a
    · rw [if_pos hg] at h
      cases hs : shrinkLoop a ft sf (fTs + c) with
      | none =>
        rw [hs] at h
        simp at h
      | some tTs =>
        rw [hs] at h
        refine ih (fTs + c) (acc ++ [(fTs, tTs)]) ws h ?_
        intro w hw
        rcases List.mem_append.mp hw with h1 | h2
        · exact hacc w h1
        · have hwe : w = (fTs, tTs) := by simpa using h2
          subst hwe
          refine ⟨shrinkLoop_lt_ft a ft sf (fTs + c) tTs hs, ?_⟩
          show fTs < tTs
          rcases shrinkLoop_eq_or_ge a ft sf (fTs + c) tTs hs with he | hge
          · omega
          · omega
    · rw [if_neg hg] at h
      cases h
      exact hacc

/-- With positive aggregation interval and chunk width, fuel above the
distance to the frontier is enough for the chunk loop to finish, with
shrink fuel one above the chunk width. -/
theorem downsampleLoop_some (a c ft : Int) (ha : 1 ≤ a) (hc : 1 ≤ c) :
    ∀ (n : Nat) (fTs : Int) (acc : List (Int × Int)),
      (ft - a - fTs).toNat ≤ n →
      ∃ ws, downsampleLoop a c ft (c.toNat + 1) (n + 1) fTs acc = some ws := by
  intro n
  induction n with
  | zero =>
    intro fTs acc hb
    exact ⟨acc, by rw [downsampleLoop_succ_eq, if_neg (by omega)]⟩
  | succ m ih =>
    intro fTs acc hb
    by_cases hg : fTs < ft - a
    · obtain ⟨t, ht⟩ := shrinkLoop_some a ft ha c.toNat (fTs + c) (by omega)
      obtain ⟨ws, hws⟩ := ih (fTs + c) (acc ++ [(fTs, t)]) (by omega)
      refine ⟨ws, ?_⟩
      rw [downsampleLoop_succ_eq, if_pos hg, ht]
      exact hws
    · exact ⟨acc, by rw [downsampleLoop_succ_eq, if_neg hg]⟩

/-- The aggregations-at-once count is at least the base AggrCnt factor. -/
theorem aggrMult_pos (aggrCnt card : Int) (h : 1 ≤ aggrCnt) :
    1 ≤ aggrMult aggrCnt card := by
  unfold aggrMult
  split_ifs <;> nlinarith

/-- The chunk width is positive when AggrCnt and the aggregation interval
are. -/
theorem chunkDur_pos (aggrCnt card a : Int) (hc : 1 ≤ aggrCnt) (ha : 1 ≤ a) :
    1 ≤ chunkDur aggrCnt card a := by
  have h := aggrMult_pos aggrCnt card hc
  unfold chunkDur
  nlinarith

/-- No (bucket, instance) pair in one workOn pass has the head flag set:
head buckets are skipped or only re-enumerate instances. -/
theorem cycleStep_no_head (reenum : Except Unit (List String)) :
    ∀ (bs : List Bucket) (fr : Bool) (insts : List String) (call : Bucket × String),
      call ∈ (cycleStep reenum bs fr insts).1 → call.1.First = false := by
  intro bs
  induction bs with
  | nil =>
    intro fr insts call h
    simp [cycleStep] at h
  | cons b tl ih =>
    intro fr insts call h
    simp only [cycleStep] at h
    by_cases hf : b.First = true
    · rw [if_pos hf] at h
      by_cases hr : fr = true
      · rw [if_pos hr] at h
        exact ih fr insts call h
      · rw [if_neg hr] at h
        cases reenum with
        | error e => simp at h
        | ok is => exact ih fr is call h
    · rw [if_neg hf] at h
      rcases List.mem_append.mp h with h1 | h2
      · obtain ⟨i, hi, hue⟩ := List.mem_map.mp h1
        rw [← hue]
        simpa using hf
      · exact ih fr insts call h2

/-- Claim C1: every chunk window (fTs, tTs) submitted by Downsample,
with srcLast the source bucket's last timestamp fetched at the start of
the call, satisfies tTs ≤ srcLast, is non-empty (fTs < tTs), and, under
the precondition srcLast ≤ now, has windowStop ≤ now. -/
theorem downsample_window_invariants (aggrCnt : Int) (b : Bucket) (env : DsEnv)
    (sf f : Nat) (src : Bucket) (ft : Int) (ws : List (Int × Int)) (w : Int × Int)
    (hFrom : b.From = some src) (hsrc : env.srcLast = Except.ok ft)
    (ha : 0 < b.AInterv) (hcnt : 1 ≤ aggrCnt) (hnow : ft ≤ env.now)
    (hds : Downsample aggrCnt b env sf f = some (Except.ok ws)) (hw : w ∈ ws) :
    w.2 ≤ ft ∧ w.1 < w.2 ∧ w.2 ≤ env.now := by
  obtain ⟨now, srcLast, tgtLast, card⟩ := env
  cases b with
  | mk bf nm a r fl =>
    simp only [Bucket.From] at hFrom
    subst hFrom
    simp only at hsrc
    subst hsrc
    simp only [Bucket.AInterv] at ha
    simp only at hnow
    simp only [Downsample, Bucket.From, Bucket.AInterv] at hds
    by_cases hg : now ≤ tgtLast + a
    · rw [if_pos hg] at hds
      cases hds
      simp at hw
    · rw [if_neg hg] at hds
      cases hl : downsampleLoop a (chunkDur aggrCnt card a) ft sf f tgtLast [] with
      | none =>
        rw [hl] at hds
        simp at hds
      | some ws0 =>
        rw [hl] at hds
        have hwe : ws0 = ws := by simpa using hds
        subst hwe
        have hc : 0 < chunkDur aggrCnt card a :=
          chunkDur_pos aggrCnt card a hcnt (by omega)
        have hm := downsampleLoop_mem a (chunkDur aggrCnt card a) ft sf ha hc
          f tgtLast [] ws0 hl (by simp) w hw
        exact ⟨le_of_lt hm.1, hm.2, le_trans (le_of_lt hm.1) hnow⟩

/-- Claim C1 witness: a concrete Downsample run with srcLast = 20,
now = 25, target last 0, cardinality 5000 submits the windows
(0,8), (8,16), (16,19); the window (16,19) satisfies the invariants. -/
theorem downsample_window_invariants_witness :
    ((16, 19) : Int × Int).2 ≤ 20 ∧ ((16, 19) : Int × Int).1 < ((16, 19) : Int × Int).2 ∧
      ((16, 19) : Int × Int).2 ≤ (⟨25, Except.ok 20, 0, 5000⟩ : DsEnv).now :=
  downsample_window_invariants 8 (.mk (some (.mk none "src" 1 10 true)) "tgt" 1 100 false)
    ⟨25, Except.ok 20, 0, 5000⟩ 10 20 (.mk none "src" 1 10 true) 20
    [(0, 8), (8, 16), (16, 19)] (16, 19) rfl rfl (by decide) (by decide) (by decide)
    rfl (by decide)

/-- Claim C2 counterexample: with the default aggrCnt = 8 and cardinality
0, the chunk duration is 80 aggregation intervals, not 8: the Go switch
case card != 0 && card < 100 does not fire at card = 0, but card < 1000
does. -/
theorem chunk_card_zero_counterexample :
    chunkDur 8 0 1 = 80 ∧ ¬ chunkDur 8 0 1 = 8 * 1 := by
  constructor
  · decide
  · decide

/-- Claim C2 as amended: with the default aggrCnt = 8, the chunk
durations for cardinality 0, 50, 500, 5000 are 80, 160, 80 and 8 times
the target's aggregation interval. -/
theorem chunk_widths_defaults (aInterv : Int) :
    chunkDur 8 0 aInterv = 80 * aInterv ∧ chunkDur 8 50 aInterv = 160 * aInterv ∧
      chunkDur 8 500 aInterv = 80 * aInterv ∧ chunkDur 8 5000 aInterv = 8 * aInterv := by
  refine ⟨?_, ?_, ?_, ?_⟩ <;> norm_num [chunkDur, aggrMult]

/-- Claim C3: with the default thresholds, an instance whose cardinality
probe errors (the Go Cardinality zero value 0 is returned alongside the
error) is filed under "light", although the warning log printed on that
path says "Using highest rank" and the spec says the highest rank (hevy)
is assumed. -/
theorem cardinality_error_goes_light :
    GetDsInstances 50 1000 [("sw1", 0, true)] = [("sw1", "light")] ∧
      rankGroup 50 1000 0 ≠ "hevy" := by
  constructor
  · rfl
  · decide

/-- Claim C4: in every cycle of workOn (first and subsequent), no
(bucket, instance) pair handed to Downsample has the head flag set. -/
theorem workOn_no_head_downsample (reenum : Nat → Except Unit (List String))
    (buckets : List Bucket) :
    ∀ (n : Nat) (fr : Bool) (insts : List String) (call : Bucket × String),
      call ∈ workOnCalls reenum buckets n fr insts → call.1.First = false := by
  intro n
  induction n with
  | zero =>
    intro fr insts call h
    simp [workOnCalls] at h
  | succ m ih =>
    intro fr insts call h
    simp only [workOnCalls] at h
    rcases hcs : cycleStep (reenum m) buckets fr insts with ⟨calls, o⟩
    rw [hcs] at h
    cases o with
    | none =>
      exact cycleStep_no_head (reenum m) buckets fr insts call (by rw [hcs]; exact h)
    | some insts2 =>
      rcases List.mem_append.mp h with h1 | h2
      · exact cycleStep_no_head (reenum m) buckets fr insts call (by rw [hcs]; exact h1)
      · exact ih false insts2 call h2

/-- Claim C4 witness: over two cycles of the telegraf chain with one
instance, the call (telegraf/7d, sw1) occurs in the trace and its target
bucket is not the head tier. -/
theorem workOn_no_head_downsample_witness :
    ((b7d, "sw1") : Bucket × String).1.First = false :=
  workOn_no_head_downsample (fun _ => Except.ok ["sw2"]) [b2d, b7d, b28d, b730d]
    1 true ["sw1"] (b7d, "sw1")
    (by
      have e : workOnCalls (fun _ => Except.ok ["sw2"]) [b2d, b7d, b28d, b730d]
          1 true ["sw1"] = [(b7d, "sw1"), (b28d, "sw1"), (b730d, "sw1")] := rfl
      rw [e]
      exact List.mem_cons_self _ _)

/-- Claim C5: a Resource Monitor tick sets the gate to false exactly when
the running-tasks probe errors, returns no value or returns a positive
value, or the memory probe errors, returns no value or returns a value
above dsMemLimit; in all remaining cases it sets the gate to true. -/
theorem resmon_gate_characterization (l : ℚ) (ts ms : Except Unit (Option ℚ)) :
    startResMonTick l ts ms = false ↔
      (specTasksPause ts = true ∨ specMemPause l ms = true) := by
  cases ts with
  | error e => simp [startResMonTick, specTasksPause]
  | ok o =>
    cases o with
    | none => simp [startResMonTick, specTasksPause]
    | some t =>
      by_cases ht : 0 < t
      · simp [startResMonTick, specTasksPause, ht]
      · cases ms with
        | error e => simp [startResMonTick, specTasksPause, specMemPause, ht]
        | ok o2 =>
          cases o2 with
          | none => simp [startResMonTick, specTasksPause, specMemPause, ht]
          | some m =>
            by_cases hm : l < m
            · simp [startResMonTick, specTasksPause, specMemPause, ht, hm]
            · simp [startResMonTick, specTasksPause, specMemPause, ht, hm]

/-- Claim C6: when the target bucket's last timestamp plus its
aggregation interval reaches now, Downsample returns ok without
submitting any program, for every bucket with a source, instance and
collection (the source-frontier lookup must succeed for control to reach
the guard). -/
theorem downsample_nothing_to_do (aggrCnt : Int) (b : Bucket) (env : DsEnv)
    (sf f : Nat) (src : Bucket) (ft : Int)
    (hFrom : b.From = some src) (hsrc : env.srcLast = Except.ok ft)
    (hg : env.now ≤ env.tgtLast + b.AInterv) :
    Downsample aggrCnt b env sf f = some (Except.ok []) := by
  obtain ⟨now, srcLast, tgtLast, card⟩ := env
  cases b with
  | mk bf nm a r fl =>
    simp only [Bucket.From] at hFrom
    subst hFrom
    simp only at hsrc
    subst hsrc
    simp only [Bucket.AInterv] at hg
    simp only [Downsample, Bucket.From, Bucket.AInterv]
    rw [if_pos hg]

/-- Claim C6 witness: with target last 50, aggregation interval 60 and
now = 100, Downsample is a no-op returning ok. -/
theorem downsample_nothing_to_do_witness :
    Downsample 8 (.mk (some (.mk none "s" 1 10 true)) "t" 60 100 false)
      ⟨100, Except.ok 99, 50, 0⟩ 3 3 = some (Except.ok []) :=
  downsample_nothing_to_do 8 (.mk (some (.mk none "s" 1 10 true)) "t" 60 100 false)
    ⟨100, Except.ok 99, 50, 0⟩ 3 3 (.mk none "s" 1 10 true) 99 rfl rfl (by decide)

/-- Claim C7 counterexample: the legacy app-package getDsInstances
enumerates iftraffic instances of telegraf/2d from now - 2 aggregation
intervals (240 s), not now - 10 aggregation intervals. -/
theorem app_instances_lookback_counterexample :
    appGetDsInstancesStart b2d "iftraffic" 0 = Except.ok (-240) ∧
      ¬ ((-240 : Int) = 0 - 10 * b2d.AInterv) := by
  constructor
  · rfl
  · decide

/-- Claim C7 as amended: the db-package GetAllInstances queries every
collection over the window starting at now - 10 aggregation intervals of
the given bucket; the legacy app-package getDsInstances variant instead
uses now - 2 aggregation intervals. -/
theorem instances_lookback (b : Bucket) (c : String) (now st : Int)
    (h : GetAllInstancesStart b c now = Except.ok st) :
    st = now - 10 * b.AInterv := by
  unfold GetAllInstancesStart at h
  split_ifs at h <;> simp_all

/-- Claim C7 witness: the ifstats enumeration of telegraf/2d at now = 0
starts at -1200 = 0 - 10 * 120. -/
theorem instances_lookback_witness : (-1200 : Int) = 0 - 10 * b2d.AInterv :=
  instances_lookback b2d "ifstats" 0 (-1200) rfl

/-- Claim C8: StoreBwUsage submits no write program when a bwutil point
for the instance exists within the last 24 h, submits exactly one write
program when none exists, and returns the probe error without submitting
anything when the probe fails. -/
theorem storebw_behavior (now : Int) (pts : List Int) (e : Unit) :
    StoreBwUsage now (Except.error e) = Except.error e ∧
      ((∃ t ∈ pts, now - 86400 ≤ t) → StoreBwUsage now (Except.ok pts) = Except.ok 0) ∧
      ((∀ t ∈ pts, t < now - 86400) → StoreBwUsage now (Except.ok pts) = Except.ok 1) := by
  refine ⟨rfl, ?_, ?_⟩
  · intro hex
    have hd : IsBwUtilDone now pts = true := by
      simp only [IsBwUtilDone, List.any_eq_true, decide_eq_true_eq]
      exact hex
    simp [StoreBwUsage, hd]
  · intro hall
    have hd : IsBwUtilDone now pts = false := by
      simp only [IsBwUtilDone, List.any_eq_false, decide_eq_true_eq]
      intro t ht
      have := hall t ht
      omega
    simp [StoreBwUsage, hd]

/-- Claim C8 witness: a probe error is surfaced; a point one day fresh
suppresses the write; no fresh point yields exactly one write. -/
theorem storebw_behavior_witness :
    StoreBwUsage 100000 (Except.error ()) = Except.error () ∧
      StoreBwUsage 100000 (Except.ok [99999]) = Except.ok 0 ∧
      StoreBwUsage 100000 (Except.ok [1]) = Except.ok 1 :=
  ⟨(storebw_behavior 100000 [] ()).1,
    (storebw_behavior 100000 [99999] ()).2.1 ⟨99999, by simp, by norm_num⟩,
    (storebw_behavior 100000 [1] ()).2.2 (by intro t ht; simp at ht; omega)⟩

/-- Claim C9: with a positive aggregation interval and AggrCnt at least
one, Downsample terminates: some fuel makes both the chunk loop and the
shrink loop return. -/
theorem downsample_terminates (aggrCnt : Int) (b : Bucket) (env : DsEnv)
    (ha : 1 ≤ b.AInterv) (hcnt : 1 ≤ aggrCnt) :
    ∃ sf f r, Downsample aggrCnt b env sf f = some r := by
  obtain ⟨now, srcLast, tgtLast, card⟩ := env
  cases b with
  | mk bf nm a r fl =>
    simp only [Bucket.AInterv] at ha
    cases bf with
    | none => exact ⟨0, 0, Except.error "nil source bucket", rfl⟩
    | some src =>
      cases srcLast with
      | error e => exact ⟨0, 0, Except.error "error getting last measurement time", rfl⟩
      | ok ft =>
        by_cases hg : now ≤ tgtLast + a
        · refine ⟨0, 0, Except.ok [], ?_⟩
          simp only [Downsample, Bucket.From, Bucket.AInterv]
          rw [if_pos hg]
        · have hcd : 1 ≤ chunkDur aggrCnt card a := chunkDur_pos aggrCnt card a hcnt ha
          obtain ⟨ws, hws⟩ := downsampleLoop_some a (chunkDur aggrCnt card a) ft ha hcd
            (ft - a - tgtLast).toNat tgtLast [] (le_refl _)
          refine ⟨(chunkDur aggrCnt card a).toNat + 1, (ft - a - tgtLast).toNat + 1,
            Except.ok ws, ?_⟩
          simp only [Downsample, Bucket.From, Bucket.AInterv]
          rw [if_neg hg, hws]
          rfl

/-- Claim C9 witness: Downsample on telegraf/7d with default AggrCnt
terminates for a concrete environment. -/
theorem downsample_terminates_witness :
    ∃ sf f r, Downsample 8 b7d ⟨0, Except.ok 0, 0, 0⟩ sf f = some r :=
  downsample_terminates 8 b7d ⟨0, Except.ok 0, 0, 0⟩ (by decide) (by decide)

/-- Claim C10: NewInflux initializes the gate DbHasResources to true and
the tuning fields to DsMemLimit = 40, AggrCnt = 8, CardMedium = 50 and
CardHevy = 1000, so the busy-wait gate does not block before the Resource
Monitor's first tick. -/
theorem newinflux_defaults (url token org sb bw : String) (timeout : Nat) :
    (NewInflux url token org sb bw timeout).DbHasResources = true ∧
      (NewInflux url token org sb bw timeout).DsMemLimit = 40 ∧
      (NewInflux url token org sb bw timeout).AggrCnt = 8 ∧
      (NewInflux url token org sb bw timeout).CardMedium = 50 ∧
      (NewInflux url token org sb bw timeout).CardHevy = 1000 ∧
      gateWaitBlocks (NewInflux url token org sb bw timeout).DbHasResources = false :=
  ⟨rfl, rfl, rfl, rfl, rfl, rfl⟩

end Idbds
